import Mathlib

/-!
The gin development proxy (`lib/proxy.go`).

A shallow embedding of `Proxy.Run`, `Proxy.defaultHandler` and `proxyWebsocket`.

Every call that leaves the package (the Builder, the Runner, the dialer, the
response writer, the hijacked connection, the goroutine scheduler) is answered
by a `World`, and every such call is recorded as an `Event` of the execution,
in program order.  The two goroutines started by `proxyWebsocket` and the
buffered channel `errc` are a small transition system driven by a schedule.
-/

namespace Gin

/-! ## Strings -/

/-- The ASCII branch of `strings.ToLower`: `c += 'a' - 'A'` for `'A' ≤ c ≤ 'Z'`. -/
def asciiLower (c : Char) : Char :=
  if 65 ≤ c.toNat ∧ c.toNat ≤ 90 then Char.ofNat (c.toNat + 32) else c

/-- Go `strings.ToLower`.  A string of ASCII bytes only is returned unchanged when
it has no upper-case letter and is lower-cased bytewise otherwise; any other
string is mapped rune by rune through `unicode.ToLower`, here `uni`.  A string is
a sequence of code points; a Go string that is not valid UTF-8 has no
counterpart here. -/
def ToLower (uni : Char → Char) (s : String) : String :=
  if s.data.all (fun c => decide (c.toNat < 128)) then
    if s.data.any (fun c => decide (65 ≤ c.toNat ∧ c.toNat ≤ 90)) then
      String.mk (s.data.map asciiLower)
    else s
  else String.mk (s.data.map uni)

/-! ## Requests -/

/-- Go `http.Header`, a map from canonical header names to their values. -/
abbrev Header := List (String × List String)

/-- Go `Header.Get(key)` for a key that is already in canonical form: the first value
stored under the key, and `""` when there is none. -/
def Header.Get (h : Header) (key : String) : String :=
  match h.lookup key with
  | some (v :: _) => v
  | _ => ""

/-- The parts of `http.Request` that reach this package. -/
structure Request where
  Method : String
  RequestURI : String
  Header : Header
  Body : String
deriving DecidableEq

/-- The part of `url.URL` used by the package. -/
structure URL where
  Scheme : String
  Host : String
deriving DecidableEq

/-! ## Events -/

/-- The two connections of a tunnel: `nc`, hijacked from the client, and `d`,
dialed to the backend. -/
inductive Conn
  | nc
  | d
deriving DecidableEq

/-- The two goroutines of a tunnel. -/
inductive Worker
  | toBackend
  | toClient
deriving DecidableEq

/-- The destination of a worker: `go cp(d, nc)` and `go cp(nc, d)`. -/
def Worker.dst : Worker → Conn
  | .toBackend => .d
  | .toClient => .nc

/-- The source of a worker. -/
def Worker.src : Worker → Conn
  | .toBackend => .nc
  | .toClient => .d

/-- Whatever the handler and its goroutines do to the outside. -/
inductive Event
  /-- Go `p.builder.Errors()` -/
  | builderErrors
  /-- Go `res.Write([]byte(b))` -/
  | resWrite (b : String)
  /-- Go `p.runner.Run()` -/
  | runnerRun
  /-- Go `p.proxy.ServeHTTP(res, req)`, the reverse proxy for `target` -/
  | serveHTTP (target : URL) (req : Request)
  /-- Go `net.Dial(network, address)` with its error -/
  | dial (network address : String) (err : Option String)
  /-- Go `http.Error(w, msg, code)` -/
  | httpError (msg : String) (code : Nat)
  /-- Go `hj.Hijack()` with its error -/
  | hijack (err : Option String)
  /-- Go `r.Write(dst)` with its error -/
  | requestWrite (req : Request) (dst : Conn) (err : Option String)
  /-- Go `go cp(dst, src)` -/
  | goCp (dst src : Conn)
  /-- Go `io.Copy(dst, src)` has returned `err` in a worker -/
  | copyReturn (dst src : Conn) (err : Option String)
  /-- Go `errc <- err` has completed in the worker copying to `dst` -/
  | errcSend (dst : Conn) (err : Option String)
  /-- Go `<-errc` has completed in the handler -/
  | errcRecv (err : Option String)
  /-- Go `c.Close()` -/
  | close (c : Conn)
deriving DecidableEq

/-! ## The tunnel: two workers and a buffered channel -/

/-- Where the handler stands in lines 118 to 121 of `proxyWebsocket`. -/
inductive Pc
  /-- before `go cp(d, nc)` -/
  | spawnBackend
  /-- before `go cp(nc, d)` -/
  | spawnClient
  /-- at `<-errc` -/
  | recv
  /-- the deferred calls have run and the function has returned -/
  | returned
deriving DecidableEq

/-- Where a worker stands in `cp`. -/
inductive Phase
  /-- its `go` statement has not run -/
  | idle
  /-- inside `io.Copy` -/
  | copying
  /-- at `errc <- err` -/
  | reporting (err : Option String)
  /-- Go `cp` has returned -/
  | done
deriving DecidableEq

/-- A buffered channel of errors. -/
structure Chan where
  cap : Nat
  buf : List (Option String)
deriving DecidableEq

/-- One execution of a handler so far: its events in order, the handler's
position, the two workers and `errc` (capacity 0 and empty until
`make(chan error, 2)` has run). -/
structure Exec where
  trace : List Event
  pc : Pc
  toBackend : Phase
  toClient : Phase
  errc : Chan
deriving DecidableEq

/-- The phase of a worker. -/
def Exec.phase (s : Exec) : Worker → Phase
  | .toBackend => s.toBackend
  | .toClient => s.toClient

/-- Update of the phase of a worker. -/
def Exec.setPhase (s : Exec) (k : Worker) (p : Phase) : Exec :=
  match k with
  | .toBackend => { s with toBackend := p }
  | .toClient => { s with toClient := p }

/-- The handler has returned. -/
def Exec.returned (s : Exec) : Bool := decide (s.pc = .returned)

/-- An execution of straight-line handler code that has returned. -/
def Exec.finished (t : List Event) : Exec :=
  { trace := t, pc := .returned, toBackend := .idle, toClient := .idle, errc := ⟨0, []⟩ }

/-- The execution at line 118: `errc := make(chan error, 2)` has run, no worker
has been started. -/
def Exec.opened (t : List Event) : Exec :=
  { trace := t, pc := .spawnBackend, toBackend := .idle, toClient := .idle, errc := ⟨2, []⟩ }

/-- What the scheduler and the connections may do next. -/
inductive Action
  /-- the handler runs its next statement -/
  | handler
  /-- Go `io.Copy` of a worker returns `err` -/
  | copyEnds (k : Worker) (err : Option String)
  /-- a worker completes `errc <- err` -/
  | send (k : Worker)
deriving DecidableEq

/-- One step of the tunnel; `none` when the action cannot happen in this state
(a receive on an empty channel, a send on a full one, a statement of a goroutine
that is not there). -/
def step (s : Exec) : Action → Option Exec
  | .handler =>
    match s.pc with
    | .spawnBackend =>
      some { s with trace := s.trace ++ [.goCp .d .nc], toBackend := .copying, pc := .spawnClient }
    | .spawnClient =>
      some { s with trace := s.trace ++ [.goCp .nc .d], toClient := .copying, pc := .recv }
    | .recv =>
      match s.errc.buf with
      | [] => none
      | e :: rest =>
        some { s with trace := s.trace ++ [.errcRecv e, .close .d, .close .nc],
                      errc := { s.errc with buf := rest }, pc := .returned }
    | .returned => none
  | .copyEnds k err =>
    match s.phase k with
    | .copying =>
      some { s.setPhase k (.reporting err) with
             trace := s.trace ++ [.copyReturn k.dst k.src err] }
    | _ => none
  | .send k =>
    match s.phase k with
    | .reporting err =>
      if s.errc.buf.length < s.errc.cap then
        some { s.setPhase k .done with
               trace := s.trace ++ [.errcSend k.dst err],
               errc := { s.errc with buf := s.errc.buf ++ [err] } }
      else none
    | _ => none

/-- Run a schedule; an action that cannot happen is skipped. -/
def run (s : Exec) : List Action → Exec
  | [] => s
  | a :: as =>
    match step s a with
    | some s' => run s' as
    | none => run s as

/-! ## The world -/

/-- The answers of everything outside the package. -/
structure World where
  /-- Go `unicode.ToLower` -/
  unicodeToLower : Char → Char
  /-- the result of `p.builder.Errors()` -/
  builderErrors : String
  /-- the error of `net.Dial(network, address)`, `none` for a connection -/
  dial : String → String → Option String
  /-- the response writer implements `http.Hijacker` -/
  isHijacker : Bool
  /-- the error of `hj.Hijack()` -/
  hijackErr : Option String
  /-- the error of `r.Write(d)` -/
  writeErr : Option String
  /-- what happens, in order, once the tunnel is set up -/
  schedule : List Action

/-! ## The handlers -/

/-- Go `proxyWebsocket(w, r, host)`.  The `fmt.Errorf` calls build a value that is
dropped and leave no event.  The deferred `nc.Close()` and `d.Close()` run in
reverse order on the returns below their `defer` statements. -/
def proxyWebsocket (w : World) (r : Request) (host : URL) : Exec :=
  let t0 : List Event := [.dial "tcp" host.Host (w.dial "tcp" host.Host)]
  match w.dial "tcp" host.Host with
  | some _ => Exec.finished (t0 ++ [.httpError "Error contacting backend server." 500])
  | none =>
    if !w.isHijacker then
      Exec.finished (t0 ++ [.httpError "Not a hijacker?" 500])
    else
      let t1 := t0 ++ [.hijack w.hijackErr]
      match w.hijackErr with
      | some _ => Exec.finished t1
      | none =>
        let t2 := t1 ++ [.requestWrite r .d w.writeErr]
        match w.writeErr with
        | some _ => Exec.finished (t2 ++ [.close .d, .close .nc])
        | none =>
          run (Exec.opened t2) w.schedule

/-- The fields of `Proxy` read by `defaultHandler`: `p.to`, which is also the
target of `p.proxy`. -/
structure Proxy where
  to_ : URL

/-- Prefix an execution with earlier events. -/
def Exec.after (t : List Event) (s : Exec) : Exec := { s with trace := t ++ s.trace }

/-- Go `(p *Proxy) defaultHandler(res, req)`.  The test `len(errors) > 0` counts
bytes where `String.length` counts code points; both are positive for the same
strings. -/
def defaultHandler (p : Proxy) (w : World) (req : Request) : Exec :=
  let errors := w.builderErrors
  if errors.length > 0 then
    Exec.finished [.builderErrors, .resWrite errors]
  else
    if ToLower w.unicodeToLower (req.Header.Get "Upgrade") = "websocket"
        ∨ ToLower w.unicodeToLower (req.Header.Get "Accept") = "text/event-stream" then
      (proxyWebsocket w req p.to_).after [.builderErrors, .runnerRun]
    else
      Exec.finished [.builderErrors, .runnerRun, .serveHTTP p.to_ req]

/-! ## Startup -/

/-- The fields of `Config` read by `Proxy.Run`.  The declaration of `Config` is in
another file of the package; `Port` is printed with the verb `%d`. -/
structure Config where
  Laddr : String
  Port : Int
  ProxyTo : String
  CertFile : String
  KeyFile : String
deriving DecidableEq

/-- The calls `Proxy.Run` makes to the standard library. -/
inductive SysCall
  /-- Go `url.Parse(raw)` -/
  | urlParse (raw : String)
  /-- Go `tls.LoadX509KeyPair(certFile, keyFile)` -/
  | loadX509KeyPair (certFile keyFile : String)
  /-- Go `tls.Listen(network, laddr, server.TLSConfig)` -/
  | tlsListen (network laddr : String)
  /-- Go `net.Listen(network, laddr)` -/
  | netListen (network laddr : String)
  /-- Go `go server.Serve(p.listener)` -/
  | goServe
deriving DecidableEq

/-- The answers of the standard library to `Proxy.Run`. -/
structure Sys where
  /-- Go `url.Parse` -/
  urlParse : String → Except String URL
  /-- the error of `tls.LoadX509KeyPair` -/
  loadX509KeyPair : String → String → Option String
  /-- the error of `tls.Listen` -/
  tlsListen : String → String → Option String
  /-- the error of `net.Listen` -/
  netListen : String → String → Option String

/-- Go `fmt.Sprintf("%s:%d", laddr, port)`. -/
def sprintfAddr (laddr : String) (port : Int) : String :=
  laddr ++ ":" ++ toString port

/-- What a call of `Proxy.Run` leaves behind: `*config`, `p.to`, the calls made in
order, and the returned error. -/
structure RunResult where
  config : Config
  to_ : Option URL
  calls : List SysCall
  err : Option String

/-- Go `(p *Proxy) Run(config *Config) error`. -/
def Proxy.Run (sys : Sys) (config : Config) : RunResult :=
  let config := if config.Laddr = "" then { config with Laddr := "127.0.0.1" } else config
  let c0 : List SysCall := [.urlParse config.ProxyTo]
  match sys.urlParse config.ProxyTo with
  | .error e => { config := config, to_ := none, calls := c0, err := some e }
  | .ok url =>
    if config.CertFile ≠ "" ∧ config.KeyFile ≠ "" then
      let c1 := c0 ++ [.loadX509KeyPair config.CertFile config.KeyFile]
      match sys.loadX509KeyPair config.CertFile config.KeyFile with
      | some e => { config := config, to_ := some url, calls := c1, err := some e }
      | none =>
        let addr := sprintfAddr config.Laddr config.Port
        let c2 := c1 ++ [.tlsListen "tcp" addr]
        match sys.tlsListen "tcp" addr with
        | some e => { config := config, to_ := some url, calls := c2, err := some e }
        | none => { config := config, to_ := some url, calls := c2 ++ [.goServe], err := none }
    else
      let addr := sprintfAddr config.Laddr config.Port
      let c1 := c0 ++ [.netListen "tcp" addr]
      match sys.netListen "tcp" addr with
      | some e => { config := config, to_ := some url, calls := c1, err := some e }
      | none => { config := config, to_ := some url, calls := c1 ++ [.goServe], err := none }

/-! ## Reading a trace -/

/-- A backend dial. -/
def Event.isDial : Event → Bool
  | .dial _ _ _ => true
  | _ => false

/-- A call of the reverse proxy. -/
def Event.isServeHTTP : Event → Bool
  | .serveHTTP _ _ => true
  | _ => false

/-- A call of `Hijack`. -/
def Event.isHijack : Event → Bool
  | .hijack _ => true
  | _ => false

/-- A write of the request to a connection. -/
def Event.isRequestWrite : Event → Bool
  | .requestWrite _ _ _ => true
  | _ => false

/-- The start of a copy worker. -/
def Event.isGoCp : Event → Bool
  | .goCp _ _ => true
  | _ => false

/-- A write to the response writer. -/
def Event.isResWrite : Event → Bool
  | .resWrite _ => true
  | _ => false

/-- A completed report of the worker copying to `dst`. -/
def Event.isErrcSend (dst : Conn) : Event → Bool
  | .errcSend c _ => decide (c = dst)
  | _ => false

/-- A completed receive of the handler. -/
def Event.isErrcRecv : Event → Bool
  | .errcRecv _ => true
  | _ => false

/-- An event of lines 118 to 121 and of the workers. -/
def Event.isSplice : Event → Bool
  | .goCp _ _ => true
  | .copyReturn _ _ _ => true
  | .errcSend _ _ => true
  | .errcRecv _ => true
  | .close _ => true
  | _ => false

/-- The listen calls among the calls of `Proxy.Run`. -/
def SysCall.isListen : SysCall → Bool
  | .tlsListen _ _ => true
  | .netListen _ _ => true
  | _ => false

/-- The request went down the tunnel path: the backend was dialed. -/
def Exec.tunnelled (s : Exec) : Bool := s.trace.any Event.isDial

/-- The request went to the reverse proxy. -/
def Exec.forwarded (s : Exec) : Bool := s.trace.any Event.isServeHTTP

/-- An ASCII letter, `A` to `Z` or `a` to `z`. -/
def isAsciiLetter (c : Char) : Bool :=
  decide ((65 ≤ c.toNat ∧ c.toNat ≤ 90) ∨ (97 ≤ c.toNat ∧ c.toNat ≤ 122))

/-- Two characters are equal ignoring letter case: they are the same character,
or they are the capital and the small form of one ASCII letter. -/
def eqCharIgnoreCase (a b : Char) : Bool :=
  decide (a = b) ||
    (isAsciiLetter a && isAsciiLetter b &&
      (decide (a.toNat + 32 = b.toNat) || decide (b.toNat + 32 = a.toNat)))

/-- Two lists of characters are equal ignoring letter case: they have the same
length and are equal ignoring letter case position by position. -/
def eqListIgnoreCase : List Char → List Char → Bool
  | [], [] => true
  | a :: as, b :: bs => eqCharIgnoreCase a b && eqListIgnoreCase as bs
  | _, _ => false

/-- Two strings are equal ignoring letter case. -/
def eqIgnoreCase (a b : String) : Bool := eqListIgnoreCase a.data b.data

/-- A header value `v` matches `target`: a value of ASCII characters only matches
when it equals the target ignoring letter case; any other value matches when
`unicode.ToLower`, here `uni`, maps its runes one by one onto the target. -/
def headerMatches (uni : Char → Char) (v target : String) : Bool :=
  if v.data.all (fun c => decide (c.toNat < 128)) then eqIgnoreCase v target
  else decide (v.data.map uni = target.data)

/-- An event of `defaultHandler` itself: the Builder, the Runner, the response
body of a build error, the reverse proxy. -/
def Event.isGate : Event → Bool
  | .builderErrors => true
  | .resWrite _ => true
  | .runnerRun => true
  | .serveHTTP _ _ => true
  | _ => false

/-- The worker starts of an execution, in order. -/
def Exec.goCps (s : Exec) : List Event := s.trace.filter Event.isGoCp

/-- How often a connection was closed. -/
def Exec.closes (s : Exec) (c : Conn) : Nat := s.trace.count (.close c)

/-- How often a worker has reported on `errc`. -/
def Exec.sends (s : Exec) (k : Worker) : Nat := s.trace.countP (Event.isErrcSend k.dst)

/-- How often the handler has received from `errc`. -/
def Exec.recvs (s : Exec) : Nat := s.trace.countP Event.isErrcRecv

/-- What holds of every state of a tunnel. -/
def Exec.Inv (s : Exec) : Prop :=
  s.errc.cap = 2 ∧
  s.goCps = (match s.pc with
    | .spawnBackend => []
    | .spawnClient => [.goCp .d .nc]
    | _ => [.goCp .d .nc, .goCp .nc .d]) ∧
  (s.toBackend = .idle ↔ s.pc = .spawnBackend) ∧
  (s.toClient = .idle ↔ (s.pc = .spawnBackend ∨ s.pc = .spawnClient)) ∧
  s.closes .d = (if s.pc = .returned then 1 else 0) ∧
  s.closes .nc = (if s.pc = .returned then 1 else 0) ∧
  s.recvs = (if s.pc = .returned then 1 else 0) ∧
  s.sends .toBackend = (if s.toBackend = .done then 1 else 0) ∧
  s.sends .toClient = (if s.toClient = .done then 1 else 0) ∧
  s.errc.buf.length + s.recvs = s.sends .toBackend + s.sends .toClient

/-! ## Concrete inputs -/

/-- A proxy in front of a backend on port 3000. -/
def exProxy : Proxy := ⟨⟨"http", "localhost:3000"⟩⟩

/-- A world in which every call succeeds and the backend-to-client copy ends
first, with end of stream, while the other copy is still running. -/
def exWorld : World :=
  { unicodeToLower := id
    builderErrors := ""
    dial := fun _ _ => none
    isHijacker := true
    hijackErr := none
    writeErr := none
    schedule := [.handler, .handler, .copyEnds .toClient none, .send .toClient, .handler] }

/-- The build is broken. -/
def exBroken : World := { exWorld with builderErrors := "main.go:7: undefined: x" }

/-- Nothing listens on the backend address. -/
def exNoBackend : World := { exWorld with dial := fun _ _ => some "connection refused" }

/-- The response writer is not an `http.Hijacker`. -/
def exNotHijacker : World := { exWorld with isHijacker := false }

/-- The call of `Hijack` fails. -/
def exHijackFails : World := { exWorld with hijackErr := some "connection already hijacked" }

/-- The write of the request to the backend fails. -/
def exWriteFails : World := { exWorld with writeErr := some "broken pipe" }

/-- A WebSocket handshake. -/
def exWebsocket : Request :=
  { Method := "GET", RequestURI := "/ws",
    Header := [("Connection", ["Upgrade"]), ("Upgrade", ["WebSocket"])], Body := "" }

/-- An ordinary page request. -/
def exPlain : Request :=
  { Method := "GET", RequestURI := "/", Header := [("Accept", ["text/html"])], Body := "" }

/-- A table that agrees with `unicode.ToLower` on every ASCII character and on
U+212A KELVIN SIGN, whose lower case is `k`. -/
def exToLower (c : Char) : Char :=
  if c.toNat = 8490 then Char.ofNat 107 else asciiLower c

/-- A world whose `unicode.ToLower` is the table above. -/
def exKelvinWorld : World := { exWorld with unicodeToLower := exToLower }

/-- The value "websocKet" whose seventh rune is U+212A KELVIN SIGN. -/
def exKelvinValue : String :=
  String.mk [Char.ofNat 119, Char.ofNat 101, Char.ofNat 98, Char.ofNat 115, Char.ofNat 111,
    Char.ofNat 99, Char.ofNat 8490, Char.ofNat 101, Char.ofNat 116]

/-- A request with that `Upgrade` value and no `Accept` header. -/
def exKelvin : Request :=
  { Method := "GET", RequestURI := "/ws", Header := [("Upgrade", [exKelvinValue])], Body := "" }

/-- A standard library that parses the backend address below, loads no key pair
and can listen. -/
def exSys : Sys :=
  { urlParse := fun raw =>
      if raw = "http://localhost:3000" then .ok ⟨"http", "localhost:3000"⟩
      else .error "parse error"
    loadX509KeyPair := fun _ _ => some "open: no such file or directory"
    tlsListen := fun _ _ => none
    netListen := fun _ _ => none }

/-- A configuration without a listen address and without TLS. -/
def exConfig : Config :=
  { Laddr := "", Port := 3000, ProxyTo := "http://localhost:3000", CertFile := "", KeyFile := "" }

/-- Every value in `errc` was sent by a worker, and every receive of the handler
comes after a send of the value it received. -/
def Exec.Reported (s : Exec) : Prop :=
  (∀ e ∈ s.errc.buf, ∃ c, Event.errcSend c e ∈ s.trace) ∧
  (∀ pre e post, s.trace = pre ++ Event.errcRecv e :: post →
    ∃ c, Event.errcSend c e ∈ pre)

/-! ## The tunnel machine -/

theorem step_inv {s s' : Exec} {a : Action} (h : step s a = some s') (hi : s.Inv) : s'.Inv := by
  obtain ⟨tr, pc, tb, tc, ⟨cap, buf⟩⟩ := s
  simp only [Exec.Inv, Exec.goCps, Exec.closes, Exec.sends, Exec.recvs, Worker.dst] at hi ⊢
  obtain ⟨h1, h2, h3, h4, h5, h6, h7, h8, h9, h10⟩ := hi
  cases a with
  | handler =>
    cases pc <;> simp only [step] at h
    · cases h
      refine ⟨?_, ?_, ?_, ?_, ?_, ?_, ?_, ?_, ?_, ?_⟩ <;>
        simp [-List.countP_eq_zero, -List.filter_eq_nil_iff, List.filter_append,
          List.countP_append, List.count_append, List.countP_cons, List.count_cons,
          Event.isGoCp, Event.isErrcSend, Event.isErrcRecv, Worker.dst, Worker.src]
          at h1 h2 h3 h4 h5 h6 h7 h8 h9 h10 ⊢ <;>
        (try split_ifs at * ) <;> (try simp_all [-List.countP_eq_zero, -List.filter_eq_nil_iff])
    · cases h
      refine ⟨?_, ?_, ?_, ?_, ?_, ?_, ?_, ?_, ?_, ?_⟩ <;>
        simp [-List.countP_eq_zero, -List.filter_eq_nil_iff, List.filter_append,
          List.countP_append, List.count_append, List.countP_cons, List.count_cons,
          Event.isGoCp, Event.isErrcSend, Event.isErrcRecv, Worker.dst, Worker.src]
          at h1 h2 h3 h4 h5 h6 h7 h8 h9 h10 ⊢ <;>
        (try split_ifs at * ) <;> (try simp_all [-List.countP_eq_zero, -List.filter_eq_nil_iff])
    · cases buf with
      | nil => simp at h
      | cons e rest =>
        simp at h
        cases h
        refine ⟨?_, ?_, ?_, ?_, ?_, ?_, ?_, ?_, ?_, ?_⟩ <;>
          simp [-List.countP_eq_zero, -List.filter_eq_nil_iff, List.filter_append,
            List.countP_append, List.count_append, List.countP_cons, List.count_cons,
            Event.isGoCp, Event.isErrcSend, Event.isErrcRecv, Worker.dst, Worker.src]
            at h1 h2 h3 h4 h5 h6 h7 h8 h9 h10 ⊢ <;>
          (try split_ifs at * ) <;> (try simp_all [-List.countP_eq_zero, -List.filter_eq_nil_iff])
    · simp at h
  | copyEnds k err =>
    cases k <;> simp only [step, Exec.phase] at h
    · cases tb <;> simp [Exec.setPhase] at h
      cases h
      refine ⟨?_, ?_, ?_, ?_, ?_, ?_, ?_, ?_, ?_, ?_⟩ <;>
        simp [-List.countP_eq_zero, -List.filter_eq_nil_iff, List.filter_append,
          List.countP_append, List.count_append, List.countP_cons, List.count_cons,
          Event.isGoCp, Event.isErrcSend, Event.isErrcRecv, Worker.dst, Worker.src]
          at h1 h2 h3 h4 h5 h6 h7 h8 h9 h10 ⊢ <;>
        (try split_ifs at * ) <;> (try simp_all [-List.countP_eq_zero, -List.filter_eq_nil_iff])
    · cases tc <;> simp [Exec.setPhase] at h
      cases h
      refine ⟨?_, ?_, ?_, ?_, ?_, ?_, ?_, ?_, ?_, ?_⟩ <;>
        simp [-List.countP_eq_zero, -List.filter_eq_nil_iff, List.filter_append,
          List.countP_append, List.count_append, List.countP_cons, List.count_cons,
          Event.isGoCp, Event.isErrcSend, Event.isErrcRecv, Worker.dst, Worker.src]
          at h1 h2 h3 h4 h5 h6 h7 h8 h9 h10 ⊢ <;>
        (try split_ifs at * ) <;> (try simp_all [-List.countP_eq_zero, -List.filter_eq_nil_iff])
  | send k =>
    cases k <;> simp only [step, Exec.phase] at h
    · cases tb <;> simp [Exec.setPhase] at h
      obtain ⟨_, h⟩ := h
      cases h
      refine ⟨?_, ?_, ?_, ?_, ?_, ?_, ?_, ?_, ?_, ?_⟩ <;>
        simp [-List.countP_eq_zero, -List.filter_eq_nil_iff, List.filter_append,
          List.countP_append, List.count_append, List.countP_cons, List.count_cons,
          Event.isGoCp, Event.isErrcSend, Event.isErrcRecv, Worker.dst, Worker.src]
          at h1 h2 h3 h4 h5 h6 h7 h8 h9 h10 ⊢ <;>
        (try split_ifs at * ) <;> (try simp_all [-List.countP_eq_zero, -List.filter_eq_nil_iff])
    · cases tc <;> simp [Exec.setPhase] at h
      obtain ⟨_, h⟩ := h
      cases h
      refine ⟨?_, ?_, ?_, ?_, ?_, ?_, ?_, ?_, ?_, ?_⟩ <;>
        simp [-List.countP_eq_zero, -List.filter_eq_nil_iff, List.filter_append,
          List.countP_append, List.count_append, List.countP_cons, List.count_cons,
          Event.isGoCp, Event.isErrcSend, Event.isErrcRecv, Worker.dst, Worker.src]
          at h1 h2 h3 h4 h5 h6 h7 h8 h9 h10 ⊢ <;>
        (try split_ifs at * ) <;> (try simp_all [-List.countP_eq_zero, -List.filter_eq_nil_iff])

theorem run_inv (s : Exec) (as : List Action) (hi : s.Inv) : (run s as).Inv := by
  induction as generalizing s with
  | nil => exact hi
  | cons a as ih =>
    simp only [run]
    cases h : step s a with
    | none => exact ih s hi
    | some s' => exact ih s' (step_inv h hi)

theorem step_trace {s s' : Exec} {a : Action} (h : step s a = some s') :
    ∃ ext, s'.trace = s.trace ++ ext ∧ ∀ e ∈ ext, e.isSplice = true := by
  obtain ⟨tr, pc, tb, tc, ⟨cap, buf⟩⟩ := s
  cases a with
  | handler =>
    cases pc <;> simp only [step] at h
    · cases h
      exact ⟨_, rfl, by simp [Event.isSplice]⟩
    · cases h
      exact ⟨_, rfl, by simp [Event.isSplice]⟩
    · cases buf with
      | nil => simp at h
      | cons e rest =>
        simp at h
        cases h
        exact ⟨_, rfl, by simp [Event.isSplice]⟩
    · simp at h
  | copyEnds k err =>
    cases k <;> simp only [step, Exec.phase] at h
    · cases tb <;> simp [Exec.setPhase] at h
      cases h
      exact ⟨_, rfl, by simp [Event.isSplice]⟩
    · cases tc <;> simp [Exec.setPhase] at h
      cases h
      exact ⟨_, rfl, by simp [Event.isSplice]⟩
  | send k =>
    cases k <;> simp only [step, Exec.phase] at h
    · cases tb <;> simp [Exec.setPhase] at h
      obtain ⟨_, h⟩ := h
      cases h
      exact ⟨_, rfl, by simp [Event.isSplice]⟩
    · cases tc <;> simp [Exec.setPhase] at h
      obtain ⟨_, h⟩ := h
      cases h
      exact ⟨_, rfl, by simp [Event.isSplice]⟩

theorem run_trace (s : Exec) (as : List Action) :
    ∃ ext, (run s as).trace = s.trace ++ ext ∧ ∀ e ∈ ext, e.isSplice = true := by
  induction as generalizing s with
  | nil => exact ⟨[], by simp [run], by simp⟩
  | cons a as ih =>
    simp only [run]
    cases h : step s a with
    | none => exact ih s
    | some s' =>
      obtain ⟨e1, h1, p1⟩ := step_trace h
      obtain ⟨e2, h2, p2⟩ := ih s'
      refine ⟨e1 ++ e2, by simp [h2, h1], ?_⟩
      intro e he
      rcases List.mem_append.mp he with he | he
      · exact p1 e he
      · exact p2 e he

theorem opened_inv (r : Request) (a : String) (x : Option String) :
    (Exec.opened [.dial "tcp" a x, .hijack none, .requestWrite r .d none]).Inv := by
  simp [Exec.Inv, Exec.opened, Exec.goCps, Exec.closes, Exec.sends, Exec.recvs, Event.isGoCp,
    Event.isErrcSend, Event.isErrcRecv, List.count_cons]

theorem length_pos_iff (s : String) : s.length > 0 ↔ s ≠ "" := by
  obtain ⟨d⟩ := s
  cases d with
  | nil => simp [String.length]
  | cons c cs =>
    simp only [String.length, List.length_cons, gt_iff_lt, Nat.zero_lt_succ, true_iff]
    intro hc
    have := congrArg String.data hc
    simp at this

theorem isGate_of_isSplice {e : Event} (h : e.isSplice = true) : e.isGate = false := by
  cases e <;> simp_all [Event.isSplice, Event.isGate]

/-! ## `proxyWebsocket`: the shape of every execution -/

theorem proxyWebsocket_head (w : World) (r : Request) (host : URL) :
    ∃ rest, (proxyWebsocket w r host).trace
      = .dial "tcp" host.Host (w.dial "tcp" host.Host) :: rest := by
  unfold proxyWebsocket
  cases w.dial "tcp" host.Host with
  | some e => exact ⟨_, rfl⟩
  | none =>
    cases w.isHijacker with
    | false => exact ⟨_, rfl⟩
    | true =>
      cases w.hijackErr with
      | some e => exact ⟨_, rfl⟩
      | none =>
        cases w.writeErr with
        | some e => exact ⟨_, rfl⟩
        | none =>
          obtain ⟨ext, h, _⟩ := run_trace
            (Exec.opened [.dial "tcp" host.Host none, .hijack none, .requestWrite r .d none])
            w.schedule
          exact ⟨_, by simpa [Exec.opened] using h⟩

theorem proxyWebsocket_no_gate (w : World) (r : Request) (host : URL) :
    ∀ e ∈ (proxyWebsocket w r host).trace, e.isGate = false := by
  unfold proxyWebsocket
  cases w.dial "tcp" host.Host with
  | some e => simp [Exec.finished, Event.isGate]
  | none =>
    cases w.isHijacker with
    | false => simp [Exec.finished, Event.isGate]
    | true =>
      cases w.hijackErr with
      | some e => simp [Exec.finished, Event.isGate]
      | none =>
        cases w.writeErr with
        | some e => simp [Exec.finished, Event.isGate]
        | none =>
          obtain ⟨ext, h, hs⟩ := run_trace
            (Exec.opened [.dial "tcp" host.Host none, .hijack none, .requestWrite r .d none])
            w.schedule
          simp only [Bool.not_true, Bool.false_eq_true, ↓reduceIte, List.singleton_append,
            List.cons_append, List.nil_append]
          rw [h]
          intro e he
          rcases List.mem_append.mp he with he | he
          · simp [Exec.opened] at he
            rcases he with he | he | he <;> simp [he, Event.isGate]
          · exact isGate_of_isSplice (hs e he)

theorem tunnelled_after (w : World) (r : Request) (host : URL) :
    ((proxyWebsocket w r host).after [.builderErrors, .runnerRun]).tunnelled = true := by
  obtain ⟨rest, h⟩ := proxyWebsocket_head w r host
  simp [Exec.tunnelled, Exec.after, h, Event.isDial]

theorem forwarded_after (w : World) (r : Request) (host : URL) :
    ((proxyWebsocket w r host).after [.builderErrors, .runnerRun]).forwarded = false := by
  have hg := proxyWebsocket_no_gate w r host
  simp only [Exec.forwarded, Exec.after, List.any_eq_false, List.mem_append]
  intro e he
  rcases he with he | he
  · simp at he
    rcases he with he | he <;> simp [he, Event.isServeHTTP]
  · have := hg e he
    cases e <;> simp_all [Event.isGate, Event.isServeHTTP]

theorem runnerRun_not_mem (w : World) (r : Request) (host : URL) :
    Event.runnerRun ∉ (proxyWebsocket w r host).trace := by
  intro he
  have := proxyWebsocket_no_gate w r host _ he
  simp [Event.isGate] at this

theorem asciiLower_eq_iff (a b : Char) (hb : ¬ (65 ≤ b.toNat ∧ b.toNat ≤ 90)) :
    asciiLower a = b ↔ eqCharIgnoreCase a b = true := by
  by_cases ha : 65 ≤ a.toNat ∧ a.toNat ≤ 90
  · constructor
    · intro h
      subst h
      have hn : a = Char.ofNat a.toNat := (Char.ofNat_toNat a).symm
      generalize a.toNat = n at hn ha
      subst hn
      obtain ⟨h1, h2⟩ := ha
      interval_cases n <;> decide
    · intro h
      simp only [eqCharIgnoreCase, isAsciiLetter, Bool.or_eq_true, Bool.and_eq_true,
        decide_eq_true_eq] at h
      simp only [asciiLower, ha, and_self, if_true]
      rcases h with h | ⟨_, h | h⟩
      · subst h
        exact absurd ha hb
      · rw [h, Char.ofNat_toNat]
      · omega
  · simp only [asciiLower, ha, if_false]
    constructor
    · intro h
      simp [eqCharIgnoreCase, h]
    · intro h
      simp only [eqCharIgnoreCase, isAsciiLetter, Bool.or_eq_true, Bool.and_eq_true,
        decide_eq_true_eq] at h
      rcases h with h | ⟨⟨_, _⟩, h | h⟩
      · exact h
      · omega
      · omega

theorem map_asciiLower_eq_iff (l t : List Char)
    (ht : ∀ c ∈ t, ¬ (65 ≤ c.toNat ∧ c.toNat ≤ 90)) :
    l.map asciiLower = t ↔ eqListIgnoreCase l t = true := by
  induction l generalizing t with
  | nil => cases t <;> simp [eqListIgnoreCase]
  | cons a as ih =>
    cases t with
    | nil => simp [eqListIgnoreCase]
    | cons b bs =>
      have hb := ht b (List.mem_cons_self _ _)
      have hbs : ∀ c ∈ bs, ¬ (65 ≤ c.toNat ∧ c.toNat ≤ 90) :=
        fun c hc => ht c (List.mem_cons_of_mem _ hc)
      simp only [List.map_cons, List.cons.injEq, eqListIgnoreCase, Bool.and_eq_true]
      rw [asciiLower_eq_iff a b hb, ih bs hbs]

theorem map_asciiLower_id (l : List Char)
    (h : l.any (fun c => decide (65 ≤ c.toNat ∧ c.toNat ≤ 90)) = false) :
    l.map asciiLower = l := by
  induction l with
  | nil => rfl
  | cons a as ih =>
    simp only [List.any_cons, Bool.or_eq_false_iff, decide_eq_false_iff_not] at h
    simp only [List.map_cons, ih h.2, asciiLower, h.1, if_false]

theorem ToLower_ascii (uni : Char → Char) (v : String)
    (h : v.data.all (fun c => decide (c.toNat < 128)) = true) :
    ToLower uni v = String.mk (v.data.map asciiLower) := by
  simp only [ToLower, h, if_true]
  split
  · rfl
  · rename_i hu
    rw [map_asciiLower_id _ (by simpa using hu)]

theorem ToLower_eq_iff (uni : Char → Char) (v t : String)
    (ht : ∀ c ∈ t.data, ¬ (65 ≤ c.toNat ∧ c.toNat ≤ 90)) :
    ToLower uni v = t ↔ headerMatches uni v t = true := by
  by_cases h : v.data.all (fun c => decide (c.toNat < 128)) = true
  · rw [ToLower_ascii uni v h, String.ext_iff]
    simp only [headerMatches, h, if_true, eqIgnoreCase]
    exact map_asciiLower_eq_iff v.data t.data ht
  · simp only [ToLower, headerMatches, h, if_false, Bool.false_eq_true]
    rw [String.ext_iff]
    simp

theorem websocket_lower : ∀ c ∈ "websocket".data, ¬ (65 ≤ c.toNat ∧ c.toNat ≤ 90) := by
  decide

theorem event_stream_lower :
    ∀ c ∈ "text/event-stream".data, ¬ (65 ≤ c.toNat ∧ c.toNat ≤ 90) := by
  decide

theorem Get_absent (h : Header) (key : String) (ha : h.lookup key = none) : h.Get key = "" := by
  simp [Header.Get, ha]

theorem proxyWebsocket_opened (w : World) (r : Request) (host : URL)
    (hd : w.dial "tcp" host.Host = none) (hj : w.isHijacker = true)
    (hh : w.hijackErr = none) (hw : w.writeErr = none) :
    proxyWebsocket w r host
      = run (Exec.opened [.dial "tcp" host.Host none, .hijack none, .requestWrite r .d none])
          w.schedule := by
  simp [proxyWebsocket, hd, hj, hh, hw]

theorem proxyWebsocket_write_failed (w : World) (r : Request) (host : URL) (e : String)
    (hd : w.dial "tcp" host.Host = none) (hj : w.isHijacker = true)
    (hh : w.hijackErr = none) (hw : w.writeErr = some e) :
    proxyWebsocket w r host
      = Exec.finished [.dial "tcp" host.Host none, .hijack none, .requestWrite r .d (some e),
          .close .d, .close .nc] := by
  simp [proxyWebsocket, hd, hj, hh, hw]

theorem proxyWebsocket_inv (w : World) (r : Request) (host : URL)
    (hd : w.dial "tcp" host.Host = none) (hj : w.isHijacker = true)
    (hh : w.hijackErr = none) (hw : w.writeErr = none) :
    (proxyWebsocket w r host).Inv := by
  rw [proxyWebsocket_opened w r host hd hj hh hw]
  exact run_inv _ _ (opened_inv r host.Host none)

theorem reported_extend {s s' : Exec} (h : s.Reported) (ext : List Event)
    (ht : s'.trace = s.trace ++ ext) (hno : ∀ x ∈ ext, x.isErrcRecv = false)
    (hbuf : ∀ e ∈ s'.errc.buf, e ∈ s.errc.buf ∨ ∃ c, Event.errcSend c e ∈ ext) :
    s'.Reported := by
  constructor
  · intro e he
    rcases hbuf e he with h1 | ⟨c, hc⟩
    · obtain ⟨c, hc⟩ := h.1 e h1
      exact ⟨c, by rw [ht]; exact List.mem_append_left _ hc⟩
    · exact ⟨c, by rw [ht]; exact List.mem_append_right _ hc⟩
  · intro pre e post hsplit
    rw [ht] at hsplit
    rcases List.append_eq_append_iff.mp hsplit with ⟨a', _, h2⟩ | ⟨c', h1, h2⟩
    · have := hno (.errcRecv e) (by rw [h2]; simp)
      simp [Event.isErrcRecv] at this
    · cases c' with
      | nil =>
        have hext : ext = .errcRecv e :: post := by simpa using h2.symm
        have := hno (.errcRecv e) (by rw [hext]; simp)
        simp [Event.isErrcRecv] at this
      | cons x c'' =>
        simp only [List.cons_append, List.cons.injEq] at h2
        rw [← h2.1] at h1
        exact h.2 pre e c'' h1

theorem reported_recv {s s' : Exec} (h : s.Reported) (e0 : Option String)
    (rest : List (Option String)) (hb : s.errc.buf = e0 :: rest)
    (ht : s'.trace = s.trace ++ [.errcRecv e0, .close .d, .close .nc])
    (hbuf : s'.errc.buf = rest) : s'.Reported := by
  have hsent : ∃ c, Event.errcSend c e0 ∈ s.trace := h.1 e0 (by rw [hb]; simp)
  constructor
  · intro e he
    obtain ⟨c, hc⟩ := h.1 e (by rw [hb]; rw [hbuf] at he; exact List.mem_cons_of_mem _ he)
    exact ⟨c, by rw [ht]; exact List.mem_append_left _ hc⟩
  · intro pre e post hsplit
    rw [ht] at hsplit
    rcases List.append_eq_append_iff.mp hsplit with ⟨a', h1, h2⟩ | ⟨c', h1, h2⟩
    · match a', h1, h2 with
      | [], h1, h2 =>
        simp at h2
        obtain ⟨c, hc⟩ := hsent
        refine ⟨c, ?_⟩
        rw [h1, ← h2.1]
        simpa using hc
      | [x], _, h2 => simp at h2
      | [x, y], _, h2 => simp at h2
      | x :: y :: z :: a'', _, h2 => simp at h2
    · cases c' with
      | nil =>
        simp at h2
        obtain ⟨c, hc⟩ := hsent
        refine ⟨c, ?_⟩
        rw [h2.1]
        simpa [h1] using hc
      | cons x c'' =>
        simp only [List.cons_append, List.cons.injEq] at h2
        rw [← h2.1] at h1
        exact h.2 pre e c'' h1

theorem step_reported {s s' : Exec} {a : Action} (h : step s a = some s')
    (hi : s.Reported) : s'.Reported := by
  obtain ⟨tr, pc, tb, tc, ⟨cap, buf⟩⟩ := s
  cases a with
  | handler =>
    cases pc <;> simp only [step] at h
    · cases h
      exact reported_extend hi [.goCp .d .nc] rfl (by simp [Event.isErrcRecv])
        (fun e he => Or.inl he)
    · cases h
      exact reported_extend hi [.goCp .nc .d] rfl (by simp [Event.isErrcRecv])
        (fun e he => Or.inl he)
    · cases buf with
      | nil => simp at h
      | cons e rest =>
        simp at h
        cases h
        exact reported_recv hi e rest rfl rfl rfl
    · simp at h
  | copyEnds k err =>
    cases k <;> simp only [step, Exec.phase] at h
    · cases tb <;> simp [Exec.setPhase] at h
      cases h
      exact reported_extend hi [.copyReturn Worker.toBackend.dst Worker.toBackend.src err] rfl
        (by simp [Event.isErrcRecv]) (fun e he => Or.inl he)
    · cases tc <;> simp [Exec.setPhase] at h
      cases h
      exact reported_extend hi [.copyReturn Worker.toClient.dst Worker.toClient.src err] rfl
        (by simp [Event.isErrcRecv]) (fun e he => Or.inl he)
  | send k =>
    cases k <;> simp only [step, Exec.phase] at h
    · cases tb <;> simp [Exec.setPhase] at h
      obtain ⟨_, h⟩ := h
      cases h
      rename_i err _
      refine reported_extend hi [.errcSend Worker.toBackend.dst err] rfl
        (by simp [Event.isErrcRecv]) ?_
      intro e he
      simp only [List.mem_append, List.mem_singleton] at he
      rcases he with he | he
      · exact Or.inl he
      · exact Or.inr ⟨Worker.toBackend.dst, by simp [he]⟩
    · cases tc <;> simp [Exec.setPhase] at h
      obtain ⟨_, h⟩ := h
      cases h
      rename_i err _
      refine reported_extend hi [.errcSend Worker.toClient.dst err] rfl
        (by simp [Event.isErrcRecv]) ?_
      intro e he
      simp only [List.mem_append, List.mem_singleton] at he
      rcases he with he | he
      · exact Or.inl he
      · exact Or.inr ⟨Worker.toClient.dst, by simp [he]⟩

theorem run_reported (s : Exec) (as : List Action) (hi : s.Reported) :
    (run s as).Reported := by
  induction as generalizing s with
  | nil => exact hi
  | cons a as ih =>
    simp only [run]
    cases h : step s a with
    | none => exact ih s hi
    | some s' => exact ih s' (step_reported h hi)

theorem opened_reported (r : Request) (a : String) (x : Option String) :
    (Exec.opened [.dial "tcp" a x, .hijack none, .requestWrite r .d none]).Reported := by
  constructor
  · intro e he
    simp [Exec.opened] at he
  · intro pre e post hsplit
    have hmem : Event.errcRecv e ∈
        (Exec.opened [.dial "tcp" a x, .hijack none, .requestWrite r .d none]).trace := by
      rw [hsplit]
      simp
    simp [Exec.opened] at hmem

theorem isRequestWrite_of_isSplice {e : Event} (h : e.isSplice = true) :
    e.isRequestWrite = false := by
  cases e <;> simp_all [Event.isSplice, Event.isRequestWrite]

theorem inv_send_enabled {s : Exec} (hi : s.Inv) (k : Worker) (err : Option String)
    (hp : s.phase k = .reporting err) : (step s (.send k)).isSome = true := by
  obtain ⟨h1, _, _, _, _, _, h7, h8, h9, h10⟩ := hi
  have hr : s.recvs ≤ 1 := by rw [h7]; split <;> omega
  cases k with
  | toBackend =>
    simp only [Exec.phase] at hp
    have h8' : s.sends .toBackend = 0 := by rw [h8]; simp [hp]
    have h9' : s.sends .toClient ≤ 1 := by rw [h9]; split <;> omega
    have hlt : s.errc.buf.length < s.errc.cap := by omega
    simp [step, Exec.phase, hp, hlt]
  | toClient =>
    simp only [Exec.phase] at hp
    have h9' : s.sends .toClient = 0 := by rw [h9]; simp [hp]
    have h8' : s.sends .toBackend ≤ 1 := by rw [h8]; split <;> omega
    have hlt : s.errc.buf.length < s.errc.cap := by omega
    simp [step, Exec.phase, hp, hlt]

theorem proxyWebsocket_reported (w : World) (r : Request) (host : URL)
    (hd : w.dial "tcp" host.Host = none) (hj : w.isHijacker = true)
    (hh : w.hijackErr = none) (hw : w.writeErr = none) :
    (proxyWebsocket w r host).Reported := by
  rw [proxyWebsocket_opened w r host hd hj hh hw]
  exact run_reported _ _ (opened_reported r host.Host none)

/-! ## `defaultHandler` -/

/-- C1 as amended: a request admitted by the gate goes down the tunnel path
exactly when its `Upgrade` value matches "websocket" or its `Accept` value
matches "text/event-stream", and goes to the reverse proxy otherwise, where a
value of ASCII characters only matches when it equals the target ignoring letter
case and any other value matches when `unicode.ToLower` maps its runes onto the
target; exactly one of the two paths is taken; an absent header does not match;
a value that only contains the string does not match; two requests with the same
two header values take the same path. -/
theorem defaultHandler_routes_by_two_headers (p : Proxy) (w : World) (req : Request)
    (h : w.builderErrors = "") :
    ((defaultHandler p w req).tunnelled = true ↔
      (headerMatches w.unicodeToLower (req.Header.Get "Upgrade") "websocket" = true
        ∨ headerMatches w.unicodeToLower (req.Header.Get "Accept") "text/event-stream"
            = true)) ∧
    ((defaultHandler p w req).forwarded = true ↔
      ¬ (headerMatches w.unicodeToLower (req.Header.Get "Upgrade") "websocket" = true
        ∨ headerMatches w.unicodeToLower (req.Header.Get "Accept") "text/event-stream"
            = true)) ∧
    ((defaultHandler p w req).tunnelled = !(defaultHandler p w req).forwarded) ∧
    ((defaultHandler p w req).tunnelled = true →
      defaultHandler p w req
        = (proxyWebsocket w req p.to_).after [.builderErrors, .runnerRun]) ∧
    ((defaultHandler p w req).forwarded = true →
      defaultHandler p w req
        = Exec.finished [.builderErrors, .runnerRun, .serveHTTP p.to_ req]) ∧
    (req.Header.lookup "Upgrade" = none →
      headerMatches w.unicodeToLower (req.Header.Get "Upgrade") "websocket" = false) ∧
    (req.Header.lookup "Accept" = none →
      headerMatches w.unicodeToLower (req.Header.Get "Accept") "text/event-stream" = false) ∧
    (req.Header.lookup "Upgrade" = none →
      req.Header.Get "Accept" = "text/event-stream, */*" →
      (defaultHandler p w req).forwarded = true) ∧
    (∀ req' : Request,
      req'.Header.Get "Upgrade" = req.Header.Get "Upgrade" →
      req'.Header.Get "Accept" = req.Header.Get "Accept" →
      (defaultHandler p w req').tunnelled = (defaultHandler p w req).tunnelled ∧
      (defaultHandler p w req').forwarded = (defaultHandler p w req).forwarded) := by
  have hlen : ¬ (w.builderErrors.length > 0) := by simp [h]
  have mU := fun v => ToLower_eq_iff w.unicodeToLower v "websocket" websocket_lower
  have mA := fun v => ToLower_eq_iff w.unicodeToLower v "text/event-stream" event_stream_lower
  have key : ∀ q : Request,
      (headerMatches w.unicodeToLower (q.Header.Get "Upgrade") "websocket" = true
        ∨ headerMatches w.unicodeToLower (q.Header.Get "Accept") "text/event-stream"
            = true) →
      defaultHandler p w q = (proxyWebsocket w q p.to_).after [.builderErrors, .runnerRun] := by
    intro q hq
    rw [← mU, ← mA] at hq
    simp only [defaultHandler, hlen, if_false, hq, if_true]
  have key2 : ∀ q : Request,
      ¬ (headerMatches w.unicodeToLower (q.Header.Get "Upgrade") "websocket" = true
        ∨ headerMatches w.unicodeToLower (q.Header.Get "Accept") "text/event-stream"
            = true) →
      defaultHandler p w q = Exec.finished [.builderErrors, .runnerRun, .serveHTTP p.to_ q] := by
    intro q hq
    rw [← mU, ← mA] at hq
    simp only [defaultHandler, hlen, if_false, hq]
  have tun : ∀ q : Request, (defaultHandler p w q).tunnelled = true ↔
      (headerMatches w.unicodeToLower (q.Header.Get "Upgrade") "websocket" = true
        ∨ headerMatches w.unicodeToLower (q.Header.Get "Accept") "text/event-stream"
            = true) := by
    intro q
    constructor
    · intro ht
      by_contra hq
      rw [key2 q hq] at ht
      simp [Exec.tunnelled, Exec.finished, Event.isDial] at ht
    · intro hq
      rw [key q hq]
      exact tunnelled_after w q p.to_
  have fwd : ∀ q : Request, (defaultHandler p w q).forwarded = true ↔
      ¬ (headerMatches w.unicodeToLower (q.Header.Get "Upgrade") "websocket" = true
        ∨ headerMatches w.unicodeToLower (q.Header.Get "Accept") "text/event-stream"
            = true) := by
    intro q
    constructor
    · intro hf hq
      rw [key q hq, forwarded_after] at hf
      exact Bool.false_ne_true hf
    · intro hq
      rw [key2 q hq]
      simp [Exec.forwarded, Exec.finished, Event.isServeHTTP]
  have hU : req.Header.lookup "Upgrade" = none →
      headerMatches w.unicodeToLower (req.Header.Get "Upgrade") "websocket" = false := by
    intro ha
    rw [Get_absent _ _ ha]
    rfl
  have hA : req.Header.lookup "Accept" = none →
      headerMatches w.unicodeToLower (req.Header.Get "Accept") "text/event-stream" = false := by
    intro ha
    rw [Get_absent _ _ ha]
    rfl
  refine ⟨tun req, fwd req, ?_, ?_, ?_, hU, hA, ?_, ?_⟩
  · by_cases hq : (headerMatches w.unicodeToLower (req.Header.Get "Upgrade") "websocket" = true
        ∨ headerMatches w.unicodeToLower (req.Header.Get "Accept") "text/event-stream"
            = true)
    · rw [(tun req).mpr hq, key req hq, forwarded_after]
      rfl
    · have hf := (fwd req).mpr hq
      have ht : (defaultHandler p w req).tunnelled = false := by
        rw [key2 req hq]
        simp [Exec.tunnelled, Exec.finished, Event.isDial]
      rw [hf, ht]
      rfl
  · intro ht
    exact key req ((tun req).mp ht)
  · intro hf
    exact key2 req ((fwd req).mp hf)
  · intro ha hv
    apply (fwd req).mpr
    intro hq
    rcases hq with hq | hq
    · rw [hU ha] at hq
      exact Bool.false_ne_true hq
    · rw [hv] at hq
      have hne : headerMatches w.unicodeToLower "text/event-stream, */*" "text/event-stream"
          = false := rfl
      rw [hne] at hq
      exact Bool.false_ne_true hq
  · intro q hu hacc
    have e1 : (headerMatches w.unicodeToLower (q.Header.Get "Upgrade") "websocket" = true
        ∨ headerMatches w.unicodeToLower (q.Header.Get "Accept") "text/event-stream"
            = true) ↔
        (headerMatches w.unicodeToLower (req.Header.Get "Upgrade") "websocket" = true
        ∨ headerMatches w.unicodeToLower (req.Header.Get "Accept") "text/event-stream"
            = true) := by
      rw [hu, hacc]
    constructor
    · rw [Bool.eq_iff_iff, tun q, tun req, e1]
    · rw [Bool.eq_iff_iff, fwd q, fwd req, e1]

/-- Witness of amended C1 at a WebSocket handshake in mixed case and at an
ordinary page request. -/
theorem defaultHandler_routes_by_two_headers_witness :
    exWorld.builderErrors = "" ∧ (defaultHandler exProxy exWorld exWebsocket).tunnelled = true ∧
    (defaultHandler exProxy exWorld exPlain).forwarded = true :=
  ⟨rfl,
   (defaultHandler_routes_by_two_headers exProxy exWorld exWebsocket rfl).1.mpr (Or.inl rfl),
   (defaultHandler_routes_by_two_headers exProxy exWorld exPlain rfl).2.1.mpr (by decide)⟩

/-- C1 fails as stated: the `Upgrade` value "websocKet" written with U+212A KELVIN
SIGN does not equal "websocket" ignoring letter case, the request has no `Accept`
header, and the request is handed to the tunnel path. -/
theorem defaultHandler_tunnels_kelvin_sign :
    exKelvinWorld.builderErrors = "" ∧
    exKelvin.Header.Get "Upgrade" = exKelvinValue ∧
    exKelvinValue.data.length = 9 ∧
    eqIgnoreCase (exKelvin.Header.Get "Upgrade") "websocket" = false ∧
    exKelvin.Header.lookup "Accept" = none ∧
    eqIgnoreCase (exKelvin.Header.Get "Accept") "text/event-stream" = false ∧
    (defaultHandler exProxy exKelvinWorld exKelvin).tunnelled = true ∧
    (defaultHandler exProxy exKelvinWorld exKelvin).forwarded = false := by
  decide

/-- C2: when the Builder reports a non-empty error text, the handler queries the
Builder, writes that text to the response with one `Write`, and does nothing
else: no `Runner.Run`, no dial, no hijack, no reverse proxy. -/
theorem defaultHandler_build_error_body (p : Proxy) (w : World) (req : Request)
    (h : w.builderErrors ≠ "") :
    (defaultHandler p w req).trace = [.builderErrors, .resWrite w.builderErrors] ∧
    (defaultHandler p w req).returned = true ∧
    (defaultHandler p w req).trace.filter Event.isResWrite = [.resWrite w.builderErrors] ∧
    Event.runnerRun ∉ (defaultHandler p w req).trace ∧
    (defaultHandler p w req).tunnelled = false ∧
    (defaultHandler p w req).trace.any Event.isHijack = false ∧
    (defaultHandler p w req).forwarded = false := by
  have hlen : w.builderErrors.length > 0 := (length_pos_iff _).mpr h
  have he : defaultHandler p w req
      = Exec.finished [.builderErrors, .resWrite w.builderErrors] := by
    simp only [defaultHandler, hlen, if_true]
  rw [he]
  simp [Exec.finished, Exec.returned, Exec.tunnelled, Exec.forwarded, Event.isResWrite,
    Event.isDial, Event.isHijack, Event.isServeHTTP]

/-- Witness of C2 at a broken build. -/
theorem defaultHandler_build_error_body_witness :
    exBroken.builderErrors ≠ "" ∧
    (defaultHandler exProxy exBroken exWebsocket).trace
      = [.builderErrors, .resWrite "main.go:7: undefined: x"] :=
  ⟨by decide, (defaultHandler_build_error_body exProxy exBroken exWebsocket (by decide)).1⟩

/-- C3: when the Builder reports no error, `Runner.Run` is called exactly once,
right after the Builder query, and every other action of the request, the
backend dial and the reverse proxy among them, comes after that call. -/
theorem defaultHandler_runner_once_first (p : Proxy) (w : World) (req : Request)
    (h : w.builderErrors = "") :
    (defaultHandler p w req).trace.count .runnerRun = 1 ∧
    (∃ rest, (defaultHandler p w req).trace = [.builderErrors, .runnerRun] ++ rest ∧
      (rest = (proxyWebsocket w req p.to_).trace ∨ rest = [.serveHTTP p.to_ req])) ∧
    (∀ pre e post, (defaultHandler p w req).trace = pre ++ e :: post →
      e ≠ .builderErrors → e ≠ .runnerRun → Event.runnerRun ∈ pre) := by
  have hlen : ¬ (w.builderErrors.length > 0) := by simp [h]
  have hshape : ∃ rest, (defaultHandler p w req).trace = [.builderErrors, .runnerRun] ++ rest ∧
      (rest = (proxyWebsocket w req p.to_).trace ∨ rest = [.serveHTTP p.to_ req]) := by
    simp only [defaultHandler, hlen, if_false]
    split
    · exact ⟨_, rfl, Or.inl rfl⟩
    · exact ⟨_, rfl, Or.inr rfl⟩
  obtain ⟨rest, ht, hr⟩ := hshape
  have hnot : Event.runnerRun ∉ rest := by
    rcases hr with hr | hr
    · rw [hr]
      exact runnerRun_not_mem w req p.to_
    · rw [hr]
      simp
  refine ⟨?_, ⟨rest, ht, hr⟩, ?_⟩
  · rw [ht]
    simp [List.count_cons, List.count_eq_zero.mpr hnot]
  · intro pre e post hsplit h1 h2
    rw [ht] at hsplit
    match pre, hsplit with
    | [], hs =>
      simp at hs
      exact absurd hs.1.symm h1
    | [a], hs =>
      simp at hs
      exact absurd hs.2.1.symm h2
    | a :: b :: pre', hs =>
      simp at hs
      simp [← hs.2.1]

/-- Witness of C3 at an ordinary request. -/
theorem defaultHandler_runner_once_first_witness :
    exWorld.builderErrors = "" ∧
    (defaultHandler exProxy exWorld exPlain).trace.count .runnerRun = 1 :=
  ⟨rfl, (defaultHandler_runner_once_first exProxy exWorld exPlain rfl).1⟩

/-! ## `proxyWebsocket` -/

/-- C4: when the backend dial fails, `proxyWebsocket` answers with status 500
through the response writer and returns; it never calls `Hijack`, never writes
the request to a connection and never starts a copy worker. -/
theorem proxyWebsocket_dial_failure (w : World) (r : Request) (host : URL) (e : String)
    (h : w.dial "tcp" host.Host = some e) :
    (proxyWebsocket w r host).trace
      = [.dial "tcp" host.Host (some e), .httpError "Error contacting backend server." 500] ∧
    (proxyWebsocket w r host).returned = true ∧
    (proxyWebsocket w r host).trace.any Event.isHijack = false ∧
    (proxyWebsocket w r host).trace.any Event.isRequestWrite = false ∧
    (proxyWebsocket w r host).trace.any Event.isGoCp = false := by
  have he : proxyWebsocket w r host = Exec.finished
      [.dial "tcp" host.Host (some e), .httpError "Error contacting backend server." 500] := by
    simp [proxyWebsocket, h]
  rw [he]
  simp [Exec.finished, Exec.returned, Event.isHijack, Event.isRequestWrite, Event.isGoCp]

/-- Witness of C4 at a backend that refuses the connection. -/
theorem proxyWebsocket_dial_failure_witness :
    exNoBackend.dial "tcp" exProxy.to_.Host = some "connection refused" ∧
    (proxyWebsocket exNoBackend exWebsocket exProxy.to_).trace
      = [.dial "tcp" "localhost:3000" (some "connection refused"),
         .httpError "Error contacting backend server." 500] :=
  ⟨rfl, (proxyWebsocket_dial_failure exNoBackend exWebsocket exProxy.to_ _ rfl).1⟩

/-- C5: when the dial and the hijack both succeed, then once `proxyWebsocket` has
returned the handler has closed the client connection exactly once and the
backend connection exactly once, on the return after a failed write of the
request and on the return after the first report of a copy worker, whatever the
schedule and the outcomes of the copies; before it returns it has closed
neither. -/
theorem proxyWebsocket_closes_both_once (w : World) (r : Request) (host : URL)
    (hd : w.dial "tcp" host.Host = none) (hj : w.isHijacker = true)
    (hh : w.hijackErr = none) :
    ((proxyWebsocket w r host).returned = true →
      (proxyWebsocket w r host).closes .nc = 1 ∧ (proxyWebsocket w r host).closes .d = 1) ∧
    ((proxyWebsocket w r host).returned = false →
      (proxyWebsocket w r host).closes .nc = 0 ∧ (proxyWebsocket w r host).closes .d = 0) ∧
    (w.writeErr ≠ none → (proxyWebsocket w r host).returned = true) := by
  cases hw : w.writeErr with
  | some e =>
    rw [proxyWebsocket_write_failed w r host e hd hj hh hw]
    simp [Exec.finished, Exec.returned, Exec.closes, List.count_cons]
  | none =>
    have hi := proxyWebsocket_inv w r host hd hj hh hw
    obtain ⟨_, _, _, _, h5, h6, _⟩ := hi
    refine ⟨?_, ?_, by simp⟩
    · intro hr
      have hpc : (proxyWebsocket w r host).pc = .returned := by
        simpa [Exec.returned] using hr
      rw [h5, h6]
      simp [hpc]
    · intro hr
      have hpc : ¬ (proxyWebsocket w r host).pc = .returned := by
        simpa [Exec.returned] using hr
      rw [h5, h6]
      simp [hpc]

/-- Witness of C5 at a tunnel whose backend-to-client copy ends first. -/
theorem proxyWebsocket_closes_both_once_witness :
    (proxyWebsocket exWorld exWebsocket exProxy.to_).returned = true ∧
    (proxyWebsocket exWorld exWebsocket exProxy.to_).closes .nc = 1 ∧
    (proxyWebsocket exWorld exWebsocket exProxy.to_).closes .d = 1 :=
  ⟨by decide,
   (proxyWebsocket_closes_both_once exWorld exWebsocket exProxy.to_ rfl rfl rfl).1 (by decide)⟩

/-- C6: the code at the inputs where the claim fails.  The dial succeeds and the
response writer is not an `http.Hijacker`, or `Hijack` returns an error: the
handler returns and has never closed the dialed backend connection. -/
theorem proxyWebsocket_leaves_backend_conn_open :
    (exNotHijacker.dial "tcp" exProxy.to_.Host = none ∧
      (proxyWebsocket exNotHijacker exWebsocket exProxy.to_).returned = true ∧
      (proxyWebsocket exNotHijacker exWebsocket exProxy.to_).closes .d = 0) ∧
    (exHijackFails.dial "tcp" exProxy.to_.Host = none ∧
      (proxyWebsocket exHijackFails exWebsocket exProxy.to_).returned = true ∧
      (proxyWebsocket exHijackFails exWebsocket exProxy.to_).closes .d = 0) := by
  decide

/-- C7 fails as stated: with a response writer that is not an `http.Hijacker`
the backend is dialed, and the dial succeeds, before the 500 response. -/
theorem proxyWebsocket_dials_before_hijacker_check :
    exNotHijacker.isHijacker = false ∧
    (proxyWebsocket exNotHijacker exWebsocket exProxy.to_).trace
      = [.dial "tcp" "localhost:3000" none, .httpError "Not a hijacker?" 500] := by
  decide

/-- C7 as amended: with a response writer that is not an `http.Hijacker`,
`proxyWebsocket` dials the backend first and then answers with one 500 response,
"Not a hijacker?" after a successful dial and "Error contacting backend server."
after a failed one; it returns without calling `Hijack`, without writing the
request to a connection and without starting a copy worker. -/
theorem proxyWebsocket_not_hijacker (w : World) (r : Request) (host : URL)
    (h : w.isHijacker = false) :
    (∃ msg code, 500 ≤ code ∧ code < 600 ∧ (proxyWebsocket w r host).trace
      = [.dial "tcp" host.Host (w.dial "tcp" host.Host), .httpError msg code]) ∧
    (w.dial "tcp" host.Host = none → (proxyWebsocket w r host).trace
      = [.dial "tcp" host.Host none, .httpError "Not a hijacker?" 500]) ∧
    (∀ e, w.dial "tcp" host.Host = some e → (proxyWebsocket w r host).trace
      = [.dial "tcp" host.Host (some e), .httpError "Error contacting backend server." 500]) ∧
    (proxyWebsocket w r host).returned = true ∧
    (proxyWebsocket w r host).trace.any Event.isHijack = false ∧
    (proxyWebsocket w r host).trace.any Event.isRequestWrite = false ∧
    (proxyWebsocket w r host).trace.any Event.isGoCp = false := by
  cases hd : w.dial "tcp" host.Host with
  | some e =>
    have he : proxyWebsocket w r host = Exec.finished
        [.dial "tcp" host.Host (some e), .httpError "Error contacting backend server." 500] := by
      simp [proxyWebsocket, hd]
    rw [he]
    simp [Exec.finished, Exec.returned, Event.isHijack, Event.isRequestWrite, Event.isGoCp]
    exact ⟨_, 500, by omega, by omega, rfl, rfl⟩
  | none =>
    have he : proxyWebsocket w r host = Exec.finished
        [.dial "tcp" host.Host none, .httpError "Not a hijacker?" 500] := by
      simp [proxyWebsocket, hd, h]
    rw [he]
    simp [Exec.finished, Exec.returned, Event.isHijack, Event.isRequestWrite, Event.isGoCp]
    exact ⟨_, 500, by omega, by omega, rfl, rfl⟩

/-- Witness of amended C7 at a reachable backend. -/
theorem proxyWebsocket_not_hijacker_witness :
    exNotHijacker.isHijacker = false ∧
    (proxyWebsocket exNotHijacker exWebsocket exProxy.to_).trace.any Event.isHijack = false :=
  ⟨rfl, (proxyWebsocket_not_hijacker exNotHijacker exWebsocket exProxy.to_ rfl).2.2.2.2.1⟩

/-- C8: in every execution of `proxyWebsocket` the request is written to a
connection at most once, and exactly once when the dial and the hijack succeed;
whenever a copy worker is started, the one write of the request went to the
backend connection, returned without error and comes before every worker start;
after a failed write no copy worker is started. -/
theorem proxyWebsocket_write_before_workers (w : World) (r : Request) (host : URL) :
    (proxyWebsocket w r host).trace.countP Event.isRequestWrite ≤ 1 ∧
    (w.dial "tcp" host.Host = none → w.isHijacker = true → w.hijackErr = none →
      (proxyWebsocket w r host).trace.countP Event.isRequestWrite = 1) ∧
    ((proxyWebsocket w r host).trace.any Event.isGoCp = true →
      ∃ pre post, (proxyWebsocket w r host).trace = pre ++ .requestWrite r .d none :: post ∧
        pre.any Event.isGoCp = false ∧ pre.any Event.isRequestWrite = false ∧
        post.any Event.isRequestWrite = false) ∧
    (∀ e, .requestWrite r .d (some e) ∈ (proxyWebsocket w r host).trace →
      (proxyWebsocket w r host).trace.any Event.isGoCp = false) := by
  cases hd : w.dial "tcp" host.Host with
  | some e =>
    have he : proxyWebsocket w r host = Exec.finished
        [.dial "tcp" host.Host (some e), .httpError "Error contacting backend server." 500] := by
      simp [proxyWebsocket, hd]
    rw [he]
    simp [Exec.finished, Event.isRequestWrite, Event.isGoCp]
  | none =>
    cases hj : w.isHijacker with
    | false =>
      have he : proxyWebsocket w r host = Exec.finished
          [.dial "tcp" host.Host none, .httpError "Not a hijacker?" 500] := by
        simp [proxyWebsocket, hd, hj]
      rw [he]
      simp [Exec.finished, Event.isRequestWrite, Event.isGoCp]
    | true =>
      cases hh : w.hijackErr with
      | some e =>
        have he : proxyWebsocket w r host = Exec.finished
            [.dial "tcp" host.Host none, .hijack (some e)] := by
          simp [proxyWebsocket, hd, hj, hh]
        rw [he]
        simp [Exec.finished, Event.isRequestWrite, Event.isGoCp]
      | none =>
        cases hw : w.writeErr with
        | some e =>
          rw [proxyWebsocket_write_failed w r host e hd hj hh hw]
          simp [Exec.finished, Event.isRequestWrite, Event.isGoCp]
        | none =>
          rw [proxyWebsocket_opened w r host hd hj hh hw]
          obtain ⟨ext, h, hs⟩ := run_trace
            (Exec.opened [.dial "tcp" host.Host none, .hijack none, .requestWrite r .d none])
            w.schedule
          have hext : ext.any Event.isRequestWrite = false := by
            rw [List.any_eq_false]
            intro e he
            simp [isRequestWrite_of_isSplice (hs e he)]
          have hc : ext.countP Event.isRequestWrite = 0 := by
            rw [List.countP_eq_zero]
            intro e he
            simp [isRequestWrite_of_isSplice (hs e he)]
          rw [h]
          simp only [Exec.opened]
          refine ⟨?_, ?_, ?_, ?_⟩
          · simp [List.countP_append, List.countP_cons, Event.isRequestWrite, hc]
          · intro _ _ _
            simp [List.countP_append, List.countP_cons, Event.isRequestWrite, hc]
          · intro _
            exact ⟨[.dial "tcp" host.Host none, .hijack none], ext, by simp,
              by simp [Event.isGoCp], by simp [Event.isRequestWrite], hext⟩
          · intro e he
            exfalso
            rcases List.mem_append.mp he with he | he
            · simp at he
            · have := isRequestWrite_of_isSplice (hs _ he)
              simp [Event.isRequestWrite] at this

/-- Witness of C8 at a tunnel that starts both workers. -/
theorem proxyWebsocket_write_before_workers_witness :
    (proxyWebsocket exWorld exWebsocket exProxy.to_).trace.any Event.isGoCp = true ∧
    ∃ pre post, (proxyWebsocket exWorld exWebsocket exProxy.to_).trace
        = pre ++ .requestWrite exWebsocket .d none :: post ∧
      pre.any Event.isGoCp = false ∧ pre.any Event.isRequestWrite = false ∧
      post.any Event.isRequestWrite = false :=
  ⟨by decide,
   (proxyWebsocket_write_before_workers exWorld exWebsocket exProxy.to_).2.2.1 (by decide)⟩

/-- C10: once the request has been written to the backend, `errc` has capacity 2;
the handler starts the worker to the backend and then the worker to the client
and no other; it receives from `errc` once and has returned exactly when it has
received, which it can do as soon as one report is there, whatever the other
worker is doing; each worker reports once, when it is done; the reports never
exceed the capacity, and a worker that has its report to send can always send
it, also after the handler has returned; the two `go` statements never block.
The handler waits: at `<-errc` with no report in the channel it cannot step,
every report made is either still in the channel or was taken by the receive,
the handler has returned only when a worker has finished its report, and the
receive comes after the send of the value it took. -/
theorem proxyWebsocket_two_workers_one_report (w : World) (r : Request) (host : URL)
    (hd : w.dial "tcp" host.Host = none) (hj : w.isHijacker = true)
    (hh : w.hijackErr = none) (hw : w.writeErr = none) :
    let s := proxyWebsocket w r host
    s.errc.cap = 2 ∧
    s.goCps <+: [.goCp .d .nc, .goCp .nc .d] ∧
    ((s.pc = .recv ∨ s.pc = .returned) → s.goCps = [.goCp .d .nc, .goCp .nc .d]) ∧
    s.recvs ≤ 1 ∧
    (s.returned = true ↔ s.recvs = 1) ∧
    (∀ k, s.sends k = if s.phase k = .done then 1 else 0) ∧
    s.sends .toBackend + s.sends .toClient ≤ s.errc.cap ∧
    s.errc.buf.length ≤ s.errc.cap ∧
    (∀ k err, s.phase k = .reporting err → (step s (.send k)).isSome = true) ∧
    ((s.pc = .spawnBackend ∨ s.pc = .spawnClient) → (step s .handler).isSome = true) ∧
    (s.pc = .recv → s.errc.buf ≠ [] →
      ∃ s', step s .handler = some s' ∧ s'.returned = true ∧
        s'.toBackend = s.toBackend ∧ s'.toClient = s.toClient) ∧
    (s.pc = .recv → s.errc.buf = [] → step s .handler = none) ∧
    s.errc.buf.length + s.recvs = s.sends .toBackend + s.sends .toClient ∧
    (s.returned = true → s.toBackend = .done ∨ s.toClient = .done) ∧
    (∀ pre e post, s.trace = pre ++ .errcRecv e :: post → ∃ c, .errcSend c e ∈ pre) ∧
    (∃ sched, (proxyWebsocket { w with schedule := sched } r host).returned = true ∧
      (proxyWebsocket { w with schedule := sched } r host).toBackend = .copying) := by
  intro s
  have hi : s.Inv := proxyWebsocket_inv w r host hd hj hh hw
  have hrep : s.Reported := proxyWebsocket_reported w r host hd hj hh hw
  have hen := fun k err => inv_send_enabled hi k err
  obtain ⟨h1, h2, h3, h4, h5, h6, h7, h8, h9, h10⟩ := hi
  have hr : s.recvs ≤ 1 := by rw [h7]; split <;> omega
  have h8' : s.sends .toBackend ≤ 1 := by rw [h8]; split <;> omega
  have h9' : s.sends .toClient ≤ 1 := by rw [h9]; split <;> omega
  refine ⟨h1, ?_, ?_, hr, ?_, ?_, by omega, by omega, hen, ?_, ?_, ?_, h10, ?_, hrep.2, ?_⟩
  · rw [h2]
    cases s.pc
    · exact ⟨_, rfl⟩
    · exact ⟨[.goCp .nc .d], rfl⟩
    · exact ⟨[], rfl⟩
    · exact ⟨[], rfl⟩
  · intro hpc
    rw [h2]
    rcases hpc with hpc | hpc <;> rw [hpc]
  · rw [h7]
    by_cases hpc : s.pc = .returned <;> simp [Exec.returned, hpc]
  · intro k
    cases k
    · exact h8
    · exact h9
  · intro hpc
    rcases hpc with hpc | hpc <;> simp [step, hpc]
  · intro hpc hbuf
    cases hb : s.errc.buf with
    | nil => exact absurd hb hbuf
    | cons e rest =>
      exact ⟨{ s with trace := s.trace ++ [.errcRecv e, .close .d, .close .nc],
                      errc := { s.errc with buf := rest }, pc := .returned },
        by simp only [step, hpc, hb], by simp [Exec.returned], rfl, rfl⟩
  · intro hpc hb
    simp only [step, hpc, hb]
  · intro hret
    have hpc : s.pc = .returned := by simpa [Exec.returned] using hret
    rw [h7, if_pos hpc] at h10
    by_contra hnone
    rw [not_or] at hnone
    rw [h8, h9, if_neg hnone.1, if_neg hnone.2] at h10
    omega
  · refine ⟨[.handler, .handler, .copyEnds .toClient none, .send .toClient, .handler], ?_⟩
    rw [proxyWebsocket_opened _ r host (by simpa using hd) (by simpa using hj)
      (by simpa using hh) (by simpa using hw)]
    constructor <;> rfl

/-- Witness of C10 at a tunnel whose backend-to-client copy ends first. -/
theorem proxyWebsocket_two_workers_one_report_witness :
    (proxyWebsocket exWorld exWebsocket exProxy.to_).goCps = [.goCp .d .nc, .goCp .nc .d] ∧
    (proxyWebsocket exWorld exWebsocket exProxy.to_).recvs ≤ 1 ∧
    ((proxyWebsocket exWorld exWebsocket exProxy.to_).toBackend = .done ∨
      (proxyWebsocket exWorld exWebsocket exProxy.to_).toClient = .done) :=
  ⟨(proxyWebsocket_two_workers_one_report exWorld exWebsocket exProxy.to_ rfl rfl rfl rfl).2.2.1
      (Or.inr (by decide)),
   (proxyWebsocket_two_workers_one_report exWorld exWebsocket exProxy.to_ rfl rfl rfl rfl).2.2.2.1,
   (proxyWebsocket_two_workers_one_report exWorld exWebsocket exProxy.to_
      rfl rfl rfl rfl).2.2.2.2.2.2.2.2.2.2.2.2.2.1 (by decide)⟩

/-! ## `Proxy.Run` -/

/-- C9: with a parseable `ProxyTo`, `Proxy.Run` sets an empty `Laddr` to
"127.0.0.1" and leaves any other `Laddr` as it is, and its one listen call,
`net.Listen` on the plain path and `tls.Listen` on the TLS path once the key
pair is loaded, is for the address `Laddr:Port` formatted from that value.  When
the key pair does not load, `Run` returns that error and has not listened. -/
theorem Run_listen_address (sys : Sys) (config : Config) (url : URL)
    (h : sys.urlParse config.ProxyTo = .ok url) :
    (config.Laddr = "" → (Proxy.Run sys config).config.Laddr = "127.0.0.1") ∧
    (config.Laddr ≠ "" → (Proxy.Run sys config).config.Laddr = config.Laddr) ∧
    (¬ (config.CertFile ≠ "" ∧ config.KeyFile ≠ "") →
      (config.Laddr = "" → (Proxy.Run sys config).calls.filter SysCall.isListen
        = [.netListen "tcp" (sprintfAddr "127.0.0.1" config.Port)]) ∧
      (config.Laddr ≠ "" → (Proxy.Run sys config).calls.filter SysCall.isListen
        = [.netListen "tcp" (sprintfAddr config.Laddr config.Port)])) ∧
    ((config.CertFile ≠ "" ∧ config.KeyFile ≠ "") →
      sys.loadX509KeyPair config.CertFile config.KeyFile = none →
      (config.Laddr = "" → (Proxy.Run sys config).calls.filter SysCall.isListen
        = [.tlsListen "tcp" (sprintfAddr "127.0.0.1" config.Port)]) ∧
      (config.Laddr ≠ "" → (Proxy.Run sys config).calls.filter SysCall.isListen
        = [.tlsListen "tcp" (sprintfAddr config.Laddr config.Port)])) ∧
    ((config.CertFile ≠ "" ∧ config.KeyFile ≠ "") →
      ∀ e, sys.loadX509KeyPair config.CertFile config.KeyFile = some e →
        (Proxy.Run sys config).calls.filter SysCall.isListen = [] ∧
        (Proxy.Run sys config).err = some e) := by
  obtain ⟨laddr, port, proxyTo, certFile, keyFile⟩ := config
  simp only at h
  refine ⟨?_, ?_, ?_, ?_, ?_⟩
  · intro hl
    simp only at hl
    subst hl
    simp only [Proxy.Run, if_true, h]
    split <;> (try split) <;> (try split) <;> rfl
  · intro hl
    simp only at hl
    simp only [Proxy.Run, hl, if_false, h]
    split <;> (try split) <;> (try split) <;> rfl
  · intro hp
    simp only at hp
    constructor
    · intro hl
      simp only at hl
      subst hl
      simp only [Proxy.Run, if_true, h, hp, if_false]
      split <;> simp [SysCall.isListen]
    · intro hl
      simp only at hl
      simp only [Proxy.Run, hl, if_false, h, hp]
      split <;> simp [SysCall.isListen]
  · intro hp hk
    simp only at hp hk
    constructor
    · intro hl
      simp only at hl
      subst hl
      simp only [Proxy.Run, if_true, h, if_pos hp, hk]
      split <;> simp [SysCall.isListen]
    · intro hl
      simp only at hl
      simp only [Proxy.Run, hl, if_false, h, if_pos hp, hk]
      split <;> simp [SysCall.isListen]
  · intro hp e hk
    simp only at hp hk
    by_cases hl : laddr = ""
    · subst hl
      simp [Proxy.Run, h, hp, hk, SysCall.isListen]
    · simp [Proxy.Run, hl, h, hp, hk, SysCall.isListen]

/-- Witness of C9 at a configuration without a listen address. -/
theorem Run_listen_address_witness :
    exSys.urlParse exConfig.ProxyTo = .ok ⟨"http", "localhost:3000"⟩ ∧
    (Proxy.Run exSys exConfig).calls.filter SysCall.isListen
      = [.netListen "tcp" "127.0.0.1:3000"] :=
  ⟨rfl,
   ((Run_listen_address exSys exConfig ⟨"http", "localhost:3000"⟩ rfl).2.2.1
      (by decide)).1 rfl⟩

end Gin
